import Mathlib

/-!
Shallow embedding of the yapi-mcp server core — the credential resolver,
the multi-project search aggregation engine, the interface save path and
the cache refresh pass (src/services/yapi/api.ts and the tool-handler
layer) — together with theorems settling the specification's claims.

Remote calls are modelled as oracle functions returning `Except`; JS `Map`
is modelled as an insertion-ordered association list; machine strings are
Lean `String`s; thrown JS exceptions are `Except.error` values.
-/

namespace YapiMcp

/-! ### Generic helpers: JS string / Map / Array primitives -/

/-- Contiguous-occurrence test on char lists (JS `hay.includes(needle)` core). -/
def strHasAux (needle : List Char) : List Char → Bool
  | [] => needle.isEmpty
  | c :: rest => needle.isPrefixOf (c :: rest) || strHasAux needle rest

/-- JS `hay.includes(needle)`. -/
def strHas (hay needle : String) : Bool :=
  strHasAux needle.toList hay.toList

/-- Split a char list on every occurrence of `sep` (JS `String.split` core:
no separator yields one group, adjacent separators yield empty groups). -/
def splitChars (sep : Char) : List Char → List (List Char)
  | [] => [[]]
  | c :: rest =>
    let r := splitChars sep rest
    if c = sep then [] :: r
    else
      match r with
      | [] => [[c]]
      | g :: gs => (c :: g) :: gs

/-- JS `s.split(sep)` for a single-char separator. -/
def strSplit (s : String) (sep : Char) : List String :=
  (splitChars sep s.data).map (fun cs => String.mk cs)

/-- ASCII whitespace, the relevant cases of JS `trim`. -/
def isWsChar (c : Char) : Bool :=
  c = ' ' || c = '\t' || c = '\n' || c = '\r'

/-- JS `s.trim()`. -/
def strTrim (s : String) : String :=
  String.mk (((s.data.dropWhile isWsChar).reverse.dropWhile isWsChar).reverse)

/-- JS `s.toLowerCase()` (ASCII case mapping). -/
def strLower (s : String) : String :=
  String.mk (s.data.map Char.toLower)

/-- JS `Map.get`: the value bound to `k`, if any. -/
def mapGet {β : Type} (m : List (String × β)) (k : String) : Option β :=
  match m with
  | [] => none
  | (k1, v) :: rest => if k1 = k then some v else mapGet rest k

/-- JS `Map.set`: replace in place (keeping the key's insertion position),
else append at the end. -/
def mapSet {β : Type} (m : List (String × β)) (k : String) (v : β) :
    List (String × β) :=
  match m with
  | [] => [(k, v)]
  | (k1, v1) :: rest => if k1 = k then (k, v) :: rest else (k1, v1) :: mapSet rest k v

/-- JS `Map.keys()` in insertion order. -/
def mapKeys {β : Type} (m : List (String × β)) : List String :=
  m.map (fun p => p.1)

/-- The value of an `Except`, if it succeeded. -/
def okValue {E α : Type} : Except E α → Option α
  | .ok a => some a
  | .error _ => none

/-- Whether an `Except` succeeded. -/
def isOkB {E α : Type} : Except E α → Bool
  | .ok _ => true
  | .error _ => false

/-! ### Credential resolver (api.ts:24-45, 71-73)

The constructor splits the raw token string on commas and runs the loop
body below on each entry.  JS destructuring
`const [projectId, projectToken] = pair.trim().split(':')` keeps the first
two colon-separated segments of the entry.  A component produced by
`split(':')` never contains a colon, so the guard
`!projectId.includes(':')` of the `else if` branch is always true: every
entry that does not store a (nonempty id, nonempty token) pair overwrites
the default token with the whole trimmed entry. -/

/-- One iteration of the constructor's token loop (api.ts:33-41) over the
accumulated (tokenMap, defaultToken) state. -/
def tokenPairStep (acc : List (String × String) × String) (pair : String) :
    List (String × String) × String :=
  let parts := strSplit (strTrim pair) ':'
  let projectId := parts.headD ""
  match parts[1]? with
  | some projectToken =>
    if projectId ≠ "" ∧ projectToken ≠ "" then (mapSet acc.1 projectId projectToken, acc.2)
    else (acc.1, strTrim pair)
  | none => (acc.1, strTrim pair)

/-- Token-string parsing in the `YApiService` constructor (api.ts:30-42):
returns the insertion-ordered tokenMap and the defaultToken. -/
def parseTokenString (token : String) : List (String × String) × String :=
  if token = "" then ([], "")
  else (strSplit token ',').foldl tokenPairStep ([], "")

/-- `getToken` (api.ts:71-73): `this.tokenMap.get(projectId) || this.defaultToken`. -/
def getToken (resolver : List (String × String) × String) (projectId : String) :
    String :=
  match mapGet resolver.1 projectId with
  | some t => if t = "" then resolver.2 else t
  | none => resolver.2

/-- The specification's reading of entry splitting (spec section 4.1): split on
the FIRST colon only, keeping everything after it as the token.  Used only to
diff the spec's words against the code's behavior. -/
def breakAtFirst (sep : Char) : List Char → Option (List Char × List Char)
  | [] => none
  | c :: rest =>
    if c = sep then some ([], rest)
    else
      match breakAtFirst sep rest with
      | some (l, r) => some (c :: l, r)
      | none => none

def firstColonSplit (entry : String) : Option (String × String) :=
  match breakAtFirst ':' entry.data with
  | some (l, r) => some (String.mk l, String.mk r)
  | none => none

/-- The token an entry assigns to `pid` in the code's parsing: the entry's
first two colon-separated segments are `(pid, token)` and both are nonempty. -/
def entryPairToken (pid entry : String) : Option String :=
  let parts := strSplit (strTrim entry) ':'
  match parts[1]? with
  | some t => if parts.headD "" = pid ∧ parts.headD "" ≠ "" ∧ t ≠ "" then some t else none
  | none => none

/-- Whether an entry overwrites the default token (i.e. it does not store a
(nonempty id, nonempty token) pair). -/
def entryIsDefault (entry : String) : Bool :=
  let parts := strSplit (strTrim entry) ':'
  match parts[1]? with
  | some t => parts.headD "" = "" || t = ""
  | none => true

/-- The trimmed text of an entry, when the entry overwrites the default token. -/
def entryDefaultValue (entry : String) : Option String :=
  if entryIsDefault entry then some (strTrim entry) else none

/-- The declarative reading of the parsed credential table: the token for
`pid` is the one assigned by the LAST entry that stores a pair for `pid`,
else the trimmed text of the LAST default-overwriting entry, else empty. -/
def declaredToken (raw pid : String) : String :=
  match (strSplit raw ',').reverse.findSome? (entryPairToken pid) with
  | some t => t
  | none =>
    match (strSplit raw ',').reverse.findSome? entryDefaultValue with
    | some d => d
    | none => ""

/-! ### Search aggregation engine data model (api.ts / types)

`rid` models the remote-assigned numeric `_id`; project ids are handled as
strings everywhere in the code (`String(project._id)`), so `ProjectInfo.pid`
is a string. -/

structure ProjectInfo where
  pid : String
  name : String
  desc : String
  deriving DecidableEq, Repr

structure CategoryInfo where
  cid : Nat
  name : String
  deriving DecidableEq, Repr

/-- A raw interface record inside one category of the `list_menu` tree. -/
structure RawApi where
  rid : Nat
  title : String
  path : String
  tag : List String
  deriving DecidableEq, Repr

/-- One category node of the menu tree returned by `getInterfaceMenu`. -/
structure MenuCategory where
  cid : Nat
  name : String
  list : List RawApi
  deriving DecidableEq, Repr

/-- A flattened search-result item: the raw record plus the owning category's
id/name attached during flattening and the enrichment fields attached during
aggregation. -/
structure ApiItem where
  rid : Nat
  title : String
  path : String
  tag : List String
  catid : Nat
  cat_name : String
  project_name : Option String
  deriving DecidableEq, Repr

/-- The per-combination query record (api.ts:442-445).  An empty string / empty
list models a field the code left unset (both are JS-falsy at every use site). -/
structure QueryParams where
  keyword : String := ""
  path : String := ""
  tag : List String := []
  deriving DecidableEq, Repr

/-- The `{ total, list }` shape returned by the search functions. -/
structure SearchPage where
  total : Nat
  list : List ApiItem
  deriving DecidableEq, Repr

/-! ### Search aggregation engine (api.ts:359-631) -/

/-- JS `Array.filter` with a callback that may throw: the first thrown error
aborts the whole filter. -/
def exceptFilter {E α : Type} (p : α → Except E Bool) : List α → Except E (List α)
  | [] => .ok []
  | x :: xs =>
    match p x with
    | .error e => .error e
    | .ok b =>
      match exceptFilter p xs with
      | .error e => .error e
      | .ok rest => .ok (if b then x :: rest else rest)

/-- One filter pass inside its own try/catch (api.ts:560-601): when the callback
throws, the assignment to `filteredResults` never happens and the list is left
unchanged; the error is only logged. -/
def filterCaught {E α : Type} (p : α → Except E Bool) (l : List α) : List α :=
  match exceptFilter p l with
  | .ok r => r
  | .error _ => l

/-- Name filter callback (api.ts:563-565):
`item.title && typeof item.title === 'string' && item.title.toLowerCase().includes(keyword)`. -/
def titleMatch (keyword : String) (item : ApiItem) : Bool :=
  item.title ≠ "" && strHas (strLower item.title) (strLower keyword)

/-- Path filter callback (api.ts:575-577). -/
def pathMatch (pathKeyword : String) (item : ApiItem) : Bool :=
  item.path ≠ "" && strHas (strLower item.path) (strLower pathKeyword)

/-- Tag filter callback (api.ts:590-597): some interface tag contains some of
the (lowercased) tag keywords. -/
def tagMatch (tagKeywords : List String) (item : ApiItem) : Bool :=
  item.tag.any (fun tg => tagKeywords.any (fun kw => tg ≠ "" && strHas (strLower tg) (strLower kw)))

/-- Flattening of the menu tree (api.ts:543-554): every category's interfaces,
each tagged with the owning category's name and id. -/
def flattenMenu (menuData : List MenuCategory) : List ApiItem :=
  menuData.flatMap (fun category =>
    category.list.map (fun api =>
      { rid := api.rid, title := api.title, path := api.path, tag := api.tag,
        catid := category.cid, cat_name := category.name, project_name := none }))

/-- Stable insertion into a list kept in descending-id order. -/
def insertDescById (x : ApiItem) : List ApiItem → List ApiItem
  | [] => [x]
  | y :: ys => if y.rid ≤ x.rid then x :: y :: ys else y :: insertDescById x ys

/-- `filteredResults.sort((a, b) => (b._id || 0) - (a._id || 0))` (api.ts:604):
a stable sort by interface id, descending (modelled as stable insertion sort,
which computes the same list as any stable sort under this comparator). -/
def sortByIdDesc (l : List ApiItem) : List ApiItem :=
  l.foldr insertDescById []

/-- `searchWithSingleKeyword` (api.ts:520-615), parameterized over the menu
fetch oracle and the three filter callbacks (which, like any JS callback, may
throw).  The outer try/catch turns a menu-fetch failure into `{total:0, list:[]}`;
each filter pass has its own try/catch (`filterCaught`).  `page` and `limit`
are accepted and never used, as in the source. -/
def searchWithSingleKeywordM {E : Type}
    (getInterfaceMenu : String → Except E (List MenuCategory))
    (tMatch : String → ApiItem → Except E Bool)
    (pMatch : String → ApiItem → Except E Bool)
    (gMatch : List String → ApiItem → Except E Bool)
    (projectId : String) (queryParams : QueryParams) (page limit : Nat) : SearchPage :=
  match getInterfaceMenu projectId with
  | .error _ => { total := 0, list := [] }
  | .ok menuData =>
    let allInterfaces := flattenMenu menuData
    let r1 := if queryParams.keyword ≠ "" then
        filterCaught (tMatch queryParams.keyword) allInterfaces
      else allInterfaces
    let r2 := if queryParams.path ≠ "" then
        filterCaught (pMatch queryParams.path) r1
      else r1
    let r3 := if ¬ queryParams.tag.isEmpty then
        filterCaught (gMatch queryParams.tag) r2
      else r2
    let sorted := sortByIdDesc r3
    { total := sorted.length, list := sorted }

/-- `searchWithSingleKeyword` with the source's concrete filter callbacks,
which never throw. -/
def searchWithSingleKeyword (getInterfaceMenu : String → Except Unit (List MenuCategory))
    (projectId : String) (queryParams : QueryParams) (page limit : Nat) : SearchPage :=
  searchWithSingleKeywordM getInterfaceMenu
    (fun k i => .ok (titleMatch k i)) (fun k i => .ok (pathMatch k i))
    (fun k i => .ok (tagMatch k i)) projectId queryParams page limit

/-- The keyword-combination triples produced by the nested loops
(api.ts:438-440): each keyword class contributes its list, or the single
empty-string placeholder when unset. -/
def keywordCombos (nameKeywords pathKeywords tagKeywords : List String) :
    List (String × String × String) :=
  (if nameKeywords.isEmpty then [""] else nameKeywords).flatMap (fun nameKey =>
    (if pathKeywords.isEmpty then [""] else pathKeywords).flatMap (fun pathKey =>
      (if tagKeywords.isEmpty then [""] else tagKeywords).map (fun tagKey =>
        (nameKey, pathKey, tagKey))))

/-- Query-parameter construction for one combination (api.ts:442-445): an
empty-string key leaves the field unset. -/
def mkQueryParams (nameKey pathKey tagKey : String) : QueryParams :=
  { keyword := nameKey, path := pathKey,
    tag := if tagKey ≠ "" then [tagKey] else [] }

/-- Enrichment of one result (api.ts:456-482): always attach the project name;
best-effort attach the category name from `getCategoryList` (a failure there is
ignored and only the menu-derived `cat_name` remains). -/
def enrichItem {E : Type} (getCategoryList : String → Except E (List CategoryInfo))
    (project : ProjectInfo) (item : ApiItem) : ApiItem :=
  let result := { item with project_name := some project.name }
  match getCategoryList project.pid with
  | .error _ => result
  | .ok categories =>
    match categories.find? (fun cat => cat.cid == item.catid) with
    | some category => { result with cat_name := category.name }
    | none => result

/-- Candidate-project selection (api.ts:396-423): optional case-insensitive
substring filter over name/description/id (the id is compared un-lowercased,
as in the source), then truncation to the first `maxProjects`. -/
def candidateProjects (cachedProjects : List ProjectInfo)
    (projectKeyword : Option String) (maxProjects : Nat) : List ProjectInfo :=
  let projects :=
    match projectKeyword with
    | some kw =>
      if strTrim kw ≠ "" then
        let keyword := strLower (strTrim kw)
        cachedProjects.filter (fun (project : ProjectInfo) =>
          strHas (strLower project.name) keyword ||
          strHas (strLower project.desc) keyword ||
          strHas project.pid keyword)
      else cachedProjects
    | none => cachedProjects
  projects.take maxProjects

/-- The concatenation of all per-project, per-keyword-combination result sets
(api.ts:433-489), each result enriched with project/category names.
The name/path/tag keyword arguments are the already-normalized arrays of
api.ts:383-385. -/
def allSearchResultsM {E : Type}
    (getInterfaceMenu : String → Except E (List MenuCategory))
    (getCategoryList : String → Except E (List CategoryInfo))
    (tMatch : String → ApiItem → Except E Bool)
    (pMatch : String → ApiItem → Except E Bool)
    (gMatch : List String → ApiItem → Except E Bool)
    (cachedProjects : List ProjectInfo) (projectKeyword : Option String)
    (nameKeywords pathKeywords tagKeywords : List String)
    (page limit maxProjects : Nat) : List ApiItem :=
  (candidateProjects cachedProjects projectKeyword maxProjects).flatMap (fun project =>
    (keywordCombos nameKeywords pathKeywords tagKeywords).flatMap (fun combo =>
      let projectResults := searchWithSingleKeywordM getInterfaceMenu tMatch pMatch gMatch
        project.pid (mkQueryParams combo.1 combo.2.1 combo.2.2) page limit
      projectResults.list.map (enrichItem getCategoryList project)))

/-- `deduplicateResults`'s loop state: ids already seen. -/
def dedupGo (seen : List Nat) : List ApiItem → List ApiItem
  | [] => []
  | item :: rest =>
    if item.rid ∈ seen then dedupGo seen rest
    else item :: dedupGo (item.rid :: seen) rest

/-- `deduplicateResults` (api.ts:620-631): keep the first occurrence of every
interface id. -/
def deduplicateResults (results : List ApiItem) : List ApiItem :=
  dedupGo [] results

/-- `searchApis` (api.ts:359-515), parameterized over the remote oracles and
filter callbacks: select candidate projects, fan out the per-combination
fetches, concatenate, deduplicate, and truncate to `limit`; `total` is the
deduplicated count before truncation. -/
def searchApisM {E : Type}
    (getInterfaceMenu : String → Except E (List MenuCategory))
    (getCategoryList : String → Except E (List CategoryInfo))
    (tMatch : String → ApiItem → Except E Bool)
    (pMatch : String → ApiItem → Except E Bool)
    (gMatch : List String → ApiItem → Except E Bool)
    (cachedProjects : List ProjectInfo) (projectKeyword : Option String)
    (nameKeywords pathKeywords tagKeywords : List String)
    (page limit maxProjects : Nat) : SearchPage :=
  let projects := candidateProjects cachedProjects projectKeyword maxProjects
  if projects.isEmpty then { total := 0, list := [] }
  else
    let allResults := allSearchResultsM getInterfaceMenu getCategoryList
      tMatch pMatch gMatch cachedProjects projectKeyword
      nameKeywords pathKeywords tagKeywords page limit maxProjects
    let deduplicated := deduplicateResults allResults
    { total := deduplicated.length, list := deduplicated.take limit }

/-- `searchApis` with the source's concrete (non-throwing) filter callbacks. -/
def searchApis (getInterfaceMenu : String → Except Unit (List MenuCategory))
    (getCategoryList : String → Except Unit (List CategoryInfo))
    (cachedProjects : List ProjectInfo) (projectKeyword : Option String)
    (nameKeywords pathKeywords tagKeywords : List String)
    (page limit maxProjects : Nat) : SearchPage :=
  searchApisM getInterfaceMenu getCategoryList
    (fun k i => .ok (titleMatch k i)) (fun k i => .ok (pathMatch k i))
    (fun k i => .ok (tagMatch k i)) cachedProjects projectKeyword
    nameKeywords pathKeywords tagKeywords page limit maxProjects

/-- The concrete-callback instance of `allSearchResultsM`. -/
def allSearchResults (getInterfaceMenu : String → Except Unit (List MenuCategory))
    (getCategoryList : String → Except Unit (List CategoryInfo))
    (cachedProjects : List ProjectInfo) (projectKeyword : Option String)
    (nameKeywords pathKeywords tagKeywords : List String)
    (page limit maxProjects : Nat) : List ApiItem :=
  allSearchResultsM getInterfaceMenu getCategoryList
    (fun k i => .ok (titleMatch k i)) (fun k i => .ok (pathMatch k i))
    (fun k i => .ok (tagMatch k i)) cachedProjects projectKeyword
    nameKeywords pathKeywords tagKeywords page limit maxProjects

/-- Boolean check that a result list is sorted by interface id, descending. -/
def sortedDescByIds : List ApiItem → Bool
  | [] => true
  | [_] => true
  | a :: b :: rest => (b.rid ≤ a.rid) && sortedDescByIds (b :: rest)

/-! ### Interface save path (part_001:255-416, api.ts:242-268)

The `yapi_save_api` tool handler receives all structured fields as strings and
parses them with `JSON.parse`.  `JSON.parse` is modelled by an oracle
`jsonParse : String → Except String J` over an abstract JSON value type `J`
(the error carries the exception's message text).  The handler is modelled as
a pure function returning the response text together with the list of remote
requests issued (endpoint, params, projectId), so "no remote request was
submitted" is directly observable. -/

/-- JS truthiness of an optional string (absent and empty are both falsy). -/
def optTruthy : Option String → Bool
  | none => false
  | some s => s ≠ ""

/-- `s || d` for an optional string field. -/
def strOr (s : Option String) (d : String) : String :=
  match s with
  | some v => if v ≠ "" then v else d
  | none => d

/-- `if (field) params.field = field`: keep the value only when truthy. -/
def optStr (s : Option String) : Option String :=
  if optTruthy s then s else none

/-- The arguments of the `yapi_save_api` tool (part_001:258-281). -/
structure SaveArgs where
  projectId : String
  catid : String
  id : Option String := none
  title : String
  path : String
  method : String
  status : Option String := none
  tag : Option String := none
  req_params : Option String := none
  req_query : Option String := none
  req_headers : Option String := none
  req_body_type : Option String := none
  req_body_form : Option String := none
  req_body_other : Option String := none
  req_body_is_json_schema : Option Bool := none
  res_body_type : Option String := none
  res_body : Option String := none
  res_body_is_json_schema : Option Bool := none
  switch_notice : Option Bool := none
  api_opened : Option Bool := none
  desc : Option String := none
  markdown : Option String := none
  deriving DecidableEq, Repr

/-- The params record passed to `saveInterface` (built at part_001:308-396).
For the JSON-valued fields, `none` models "field not set" (for `tag`, the `[]`
default). -/
structure SaveApiInterfaceParams (J : Type) where
  project_id : String
  catid : String
  title : String
  path : String
  method : String
  status : String
  tag : Option J
  desc : String
  markdown : String
  id : Option String := none
  req_params : Option J := none
  req_query : Option J := none
  req_headers : Option J := none
  req_body_type : Option String := none
  req_body_form : Option J := none
  req_body_other : Option String := none
  req_body_is_json_schema : Option Bool := none
  res_body_type : Option String := none
  res_body : Option String := none
  res_body_is_json_schema : Option Bool := none
  switch_notice : Option Bool := none
  api_opened : Option Bool := none
  deriving DecidableEq, Repr

structure SaveRespData where
  rid : Nat
  deriving DecidableEq, Repr

/-- The remote envelope of the add/up endpoints. -/
structure SaveApiResponse where
  errcode : Int
  errmsg : String
  data : SaveRespData
  deriving DecidableEq, Repr

/-- `field ? JSON.parse(field) : absent` for one optional JSON-encoded field:
a falsy (absent or empty) value is left unset, otherwise the parse result or
its error. -/
def parseOptField {J : Type} (jsonParse : String → Except String J) :
    Option String → Except String (Option J)
  | some s => if s ≠ "" then (jsonParse s).map some else .ok none
  | none => .ok none

/-- Prefix an error message, as each catch block's template string does. -/
def mapErr {α : Type} (pre : String) : Except String α → Except String α
  | .error e => .error (pre ++ e)
  | .ok v => .ok v

/-- The params record the handler builds when every JSON field parses (tag
value `tv`, then the four optional JSON fields in handler order): the object
literal of part_001:308-318 plus the conditional field assignments of
part_001:320-396. -/
def builtParams {J : Type} (a : SaveArgs) (tv v1 v2 v3 v4 : Option J) :
    SaveApiInterfaceParams J :=
  { project_id := a.projectId, catid := a.catid, title := a.title, path := a.path,
    method := a.method, status := strOr a.status "undone", tag := tv,
    desc := strOr a.desc "", markdown := strOr a.markdown "",
    id := if optTruthy a.id then a.id else none,
    req_params := v1, req_query := v2, req_headers := v3,
    req_body_type := optStr a.req_body_type, req_body_form := v4,
    req_body_other := optStr a.req_body_other,
    req_body_is_json_schema := a.req_body_is_json_schema,
    res_body_type := optStr a.res_body_type, res_body := optStr a.res_body,
    res_body_is_json_schema := a.res_body_is_json_schema,
    switch_notice := a.switch_notice, api_opened := a.api_opened }

/-- Construction of the save params (part_001:306-396).  The `tag` field is
parsed inside the object literal (line 315) with NO local try/catch: its
parse error escapes to the handler's outer catch (line 409), which is why it
is wrapped with the outer catch's message here.  The four other JSON fields
each have a local try/catch that returns a field-named error immediately, in
source order. -/
def buildSaveParams {J : Type} (jsonParse : String → Except String J) (a : SaveArgs) :
    Except String (SaveApiInterfaceParams J) :=
  match mapErr "保存API接口出错: " (parseOptField jsonParse a.tag) with
  | .error msg => .error msg
  | .ok tagv =>
    match mapErr "路径参数JSON解析错误: " (parseOptField jsonParse a.req_params) with
    | .error msg => .error msg
    | .ok v1 =>
      match mapErr "查询参数JSON解析错误: " (parseOptField jsonParse a.req_query) with
      | .error msg => .error msg
      | .ok v2 =>
        match mapErr "请求头参数JSON解析错误: " (parseOptField jsonParse a.req_headers) with
        | .error msg => .error msg
        | .ok v3 =>
          match mapErr "表单请求体JSON解析错误: " (parseOptField jsonParse a.req_body_form) with
          | .error msg => .error msg
          | .ok v4 => .ok (builtParams a tagv v1 v2 v3 v4)

/-- `saveInterface` (api.ts:242-268): choose the add/up endpoint from
`!params.id`, issue the POST, check the envelope's errcode.  Returns the
outcome and the trace of issued requests. -/
def saveInterface {J : Type}
    (request : String → SaveApiInterfaceParams J → String → Except String SaveApiResponse)
    (params : SaveApiInterfaceParams J) :
    Except String SaveApiResponse × List (String × SaveApiInterfaceParams J × String) :=
  let isAdd := ¬ optTruthy params.id
  let endpoint := if isAdd then "/api/interface/add" else "/api/interface/up"
  let trace := [(endpoint, params, params.project_id)]
  match request endpoint params params.project_id with
  | .error e => (.error e, trace)
  | .ok response =>
    if response.errcode ≠ 0 then
      (.error (strOr (some response.errmsg) ((if isAdd then "新增" else "更新") ++ "接口失败")), trace)
    else (.ok response, trace)

/-- The `yapi_save_api` tool handler (part_001:282-415): build the params
(rejecting on JSON-field parse failures), call `saveInterface`, format the
success text (which echoes the resulting interface id) or the outer catch's
error text. -/
def yapiSaveApi {J : Type} (jsonParse : String → Except String J)
    (request : String → SaveApiInterfaceParams J → String → Except String SaveApiResponse)
    (a : SaveArgs) : String × List (String × SaveApiInterfaceParams J × String) :=
  match buildSaveParams jsonParse a with
  | .error msg => (msg, [])
  | .ok params =>
    match saveInterface request params with
    | (.error e, trace) => ("保存API接口出错: " ++ e, trace)
    | (.ok response, trace) =>
      ("接口" ++ (if optTruthy a.id then "更新" else "新增") ++ "成功！\n接口ID: " ++
        toString response.data.rid ++ "\n接口名称: " ++ a.title ++ "\n请求方法: " ++
        a.method ++ "\n接口路径: " ++ a.path, trace)

/-- The four JSON-encoded sub-structure fields of the save call, in the
order the handler parses them (part_001:326-368). -/
inductive SaveJsonField : Type
  | reqParams
  | reqQuery
  | reqHeaders
  | reqBodyForm
  deriving DecidableEq, Repr

/-- The handler argument each field is read from. -/
def fieldSource (a : SaveArgs) : SaveJsonField → Option String
  | .reqParams => a.req_params
  | .reqQuery => a.req_query
  | .reqHeaders => a.req_headers
  | .reqBodyForm => a.req_body_form

/-- The error-message label of each field's catch block. -/
def fieldLabel : SaveJsonField → String
  | .reqParams => "路径参数JSON解析错误: "
  | .reqQuery => "查询参数JSON解析错误: "
  | .reqHeaders => "请求头参数JSON解析错误: "
  | .reqBodyForm => "表单请求体JSON解析错误: "

/-- The fields parsed before a given field. -/
def earlierFields : SaveJsonField → List SaveJsonField
  | .reqParams => []
  | .reqQuery => [.reqParams]
  | .reqHeaders => [.reqParams, .reqQuery]
  | .reqBodyForm => [.reqParams, .reqQuery, .reqHeaders]

/-! ### Cache refresh pass (api.ts:146-215, part_001:82-102)

`getProjectInfo` / `getCategoryList` share one cache-then-fetch shape; the
parallel `Promise.all` fan-outs of `loadAllProjectInfo` /
`loadAllCategoryLists` are modelled as their completed-fan-out linearization:
every fetch runs, each success is stored, each failure is only logged (the
single-threaded await-join makes the final cache independent of completion
order, which is what "parallel, best-effort" observably means here). -/

/-- The shared cache-then-fetch step (api.ts:118-141 and 170-193): return the
cached value if present, otherwise fetch, store on success, rethrow on failure. -/
def cachedFetch {β : Type} (fetch : String → Except String β)
    (cache : List (String × β)) (pid : String) :
    List (String × β) × Except String β :=
  match mapGet cache pid with
  | some v => (cache, .ok v)
  | none =>
    match fetch pid with
    | .ok v => (mapSet cache pid v, .ok v)
    | .error e => (cache, .error e)

/-- Best-effort fan-out over a list of project ids: the resulting cache.
One id's failure leaves the others' outcomes untouched. -/
def loadAllS {β : Type} (fetch : String → Except String β)
    (projectIds : List String) (cache : List (String × β)) : List (String × β) :=
  projectIds.foldl (fun c pid => (cachedFetch fetch c pid).1) cache

/-- `loadAllProjectInfo` (api.ts:198-215): fan-out over the configured
(credentialed) project ids. -/
def loadAllProjectInfo (fetchProject : String → Except String ProjectInfo)
    (configuredProjectIds : List String) (cache : List (String × ProjectInfo)) :
    List (String × ProjectInfo) :=
  loadAllS fetchProject configuredProjectIds cache

/-- `loadAllCategoryLists` (api.ts:146-164): fan-out over the project ids
currently present in the project-info cache. -/
def loadAllCategoryLists (fetchCats : String → Except String (List CategoryInfo))
    (projectIds : List String) (cache : List (String × List CategoryInfo)) :
    List (String × List CategoryInfo) :=
  loadAllS fetchCats projectIds cache

/-- `asyncUpdateCache` (part_001:82-102), the refreshAll pass: load all
project info, then load the category lists for every project now present in
the project map.  (The persisted-snapshot write between the two phases lives
outside the modelled core and does not affect either mapping.) -/
def asyncUpdateCache (fetchProject : String → Except String ProjectInfo)
    (fetchCats : String → Except String (List CategoryInfo))
    (configuredProjectIds : List String)
    (pCache : List (String × ProjectInfo)) (cCache : List (String × List CategoryInfo)) :
    List (String × ProjectInfo) × List (String × List CategoryInfo) :=
  let p1 := loadAllProjectInfo fetchProject configuredProjectIds pCache
  let c1 := loadAllCategoryLists fetchCats (mapKeys p1) cCache
  (p1, c1)

/-! ## Theorems -/

/-! ### Map lemmas -/

theorem mapGet_mapSet {β : Type} (m : List (String × β)) (k k1 : String) (v : β) :
    mapGet (mapSet m k v) k1 = if k = k1 then some v else mapGet m k1 := by
  induction m with
  | nil => simp [mapSet, mapGet]
  | cons hd t ih =>
    obtain ⟨k2, v2⟩ := hd
    simp only [mapSet]
    by_cases h2 : k2 = k
    · subst h2
      simp only [if_pos rfl, mapGet]
      by_cases h1 : k2 = k1 <;> simp [h1]
    · simp only [if_neg h2, mapGet, ih]
      by_cases h1 : k2 = k1
      · subst h1
        have hne : ¬ k = k2 := fun h => h2 h.symm
        simp [hne]
      · simp [h1]

theorem mapKeys_mapSet_new {β : Type} (m : List (String × β)) (k : String) (v : β)
    (h : mapGet m k = none) : mapKeys (mapSet m k v) = mapKeys m ++ [k] := by
  induction m with
  | nil => simp [mapSet, mapKeys]
  | cons hd t ih =>
    obtain ⟨k2, v2⟩ := hd
    simp only [mapGet] at h
    by_cases h2 : k2 = k
    · simp [h2] at h
    · simp only [mapSet, if_neg h2, mapKeys, List.map_cons]
      simp only [if_neg h2] at h
      have := ih h
      simp only [mapKeys] at this
      simp [this]

/-! ### Credential-resolver lemmas -/

theorem tokenPairStep_get (acc : List (String × String) × String) (e pid : String) :
    mapGet (tokenPairStep acc e).1 pid = (entryPairToken pid e).or (mapGet acc.1 pid) := by
  simp only [tokenPairStep, entryPairToken]
  cases h1 : (strSplit (strTrim e) ':')[1]? with
  | none => simp
  | some t =>
    simp only []
    by_cases hv : (strSplit (strTrim e) ':').headD "" ≠ "" ∧ t ≠ ""
    · rw [if_pos hv]
      simp only [mapGet_mapSet]
      by_cases hp : (strSplit (strTrim e) ':').headD "" = pid
      · rw [if_pos hp, if_pos ⟨hp, hv.1, hv.2⟩]
        simp
      · rw [if_neg hp]
        rw [if_neg (fun hc => hp hc.1)]
        simp
    · rw [if_neg hv]
      have : ¬ ((strSplit (strTrim e) ':').headD "" = pid ∧ (strSplit (strTrim e) ':').headD "" ≠ "" ∧ t ≠ "") := by
        intro hc
        exact hv ⟨hc.2.1, hc.2.2⟩
      rw [if_neg this]
      simp

theorem tokenPairStep_default (acc : List (String × String) × String) (e : String) :
    (tokenPairStep acc e).2 = match entryDefaultValue e with
      | some d => d
      | none => acc.2 := by
  by_cases hd : entryIsDefault e = true
  · have h2 : (tokenPairStep acc e).2 = strTrim e := by
      simp only [tokenPairStep]
      simp only [entryIsDefault] at hd
      cases h1 : (strSplit (strTrim e) ':')[1]? with
      | none => simp
      | some t =>
        rw [h1] at hd
        simp only [Bool.or_eq_true, decide_eq_true_eq, List.headD_eq_head?_getD] at hd
        have hneg : ¬ ((strSplit (strTrim e) ':').head?.getD "" ≠ "" ∧ t ≠ "") := by
          rcases hd with h | h <;> simp [h]
        simp [hneg]
    simp [entryDefaultValue, hd, h2]
  · have hd2 : entryIsDefault e = false := by simpa using hd
    have h2 : (tokenPairStep acc e).2 = acc.2 := by
      simp only [tokenPairStep]
      simp only [entryIsDefault] at hd2
      cases h1 : (strSplit (strTrim e) ':')[1]? with
      | none => rw [h1] at hd2; simp at hd2
      | some t =>
        rw [h1] at hd2
        simp only [Bool.or_eq_false_iff, decide_eq_false_iff_not,
          List.headD_eq_head?_getD] at hd2
        simp [hd2.1, hd2.2]
    simp [entryDefaultValue, hd2, h2]

theorem foldl_tokenPairStep_get (entries : List String)
    (acc : List (String × String) × String) (pid : String) :
    mapGet (entries.foldl tokenPairStep acc).1 pid =
      (entries.reverse.findSome? (entryPairToken pid)).or (mapGet acc.1 pid) := by
  induction entries generalizing acc with
  | nil => simp
  | cons e rest ih =>
    rw [List.foldl_cons, ih, List.reverse_cons, List.findSome?_append, Option.or_assoc]
    congr 1
    rw [tokenPairStep_get]
    congr 1
    cases hv : entryPairToken pid e <;> simp [List.findSome?, hv]

theorem foldl_tokenPairStep_default (entries : List String)
    (acc : List (String × String) × String) :
    (entries.foldl tokenPairStep acc).2 =
      match entries.reverse.findSome? entryDefaultValue with
      | some d => d
      | none => acc.2 := by
  induction entries generalizing acc with
  | nil => simp
  | cons e rest ih =>
    rw [List.foldl_cons, ih, List.reverse_cons, List.findSome?_append]
    cases h : rest.reverse.findSome? entryDefaultValue with
    | some d => simp [Option.or]
    | none =>
      simp only [Option.or_none] at h ⊢
      rw [tokenPairStep_default]
      cases hv : entryDefaultValue e <;> simp [List.findSome?, hv]

theorem findSome?_prop {α β : Type} (f : α → Option β) (P : β → Prop)
    (hf : ∀ a b, f a = some b → P b) :
    ∀ (l : List α) (b : β), l.findSome? f = some b → P b := by
  intro l
  induction l with
  | nil => intro b h; simp at h
  | cons a rest ih =>
    intro b h
    rw [List.findSome?_cons] at h
    cases hfa : f a with
    | some c =>
      rw [hfa] at h
      simp only [Option.some_inj] at h
      exact h ▸ hf a c hfa
    | none => rw [hfa] at h; exact ih b h

theorem entryPairToken_ne_empty (pid e t : String) (h : entryPairToken pid e = some t) :
    t ≠ "" := by
  simp only [entryPairToken] at h
  split at h
  · split at h
    next hc =>
      cases h
      exact hc.2.2
    next hc => cases h
  · cases h

/-! ### Claim C2 -/

/-- Claim C2, counterexample: the claim says each entry is split on the FIRST
colon, so for the raw credential string "10:ab:cd" the token of project "10"
would be "ab:cd"; the code instead keeps only the first two colon-separated
segments, yielding token "ab". -/
theorem C2_counterexample :
    getToken (parseTokenString "10:ab:cd") "10" = "ab" ∧
    firstColonSplit "10:ab:cd" = some ("10", "ab:cd") ∧
    ("ab" : String) ≠ "ab:cd" :=
  ⟨by decide, by decide, by decide⟩

/-- Claim C2 (amended): the resolver comma-separates entries and keeps the
first two colon-separated segments of each entry as (projectId, token); an
entry whose first two segments are not both nonempty overwrites the default
token with the whole trimmed entry (last writer wins in both cases), and
tokenFor(projectId) returns the token of the last pair-entry for that id if
any, else the last default entry's trimmed text, else the empty string. -/
theorem C2_amended (raw pid : String) (hraw : raw ≠ "") :
    getToken (parseTokenString raw) pid = declaredToken raw pid := by
  have hget : mapGet (parseTokenString raw).1 pid =
      (strSplit raw ',').reverse.findSome? (entryPairToken pid) := by
    unfold parseTokenString
    rw [if_neg hraw, foldl_tokenPairStep_get]
    simp [mapGet]
  have hdef : (parseTokenString raw).2 =
      match (strSplit raw ',').reverse.findSome? entryDefaultValue with
      | some d => d
      | none => "" := by
    unfold parseTokenString
    rw [if_neg hraw, foldl_tokenPairStep_default]
  unfold getToken declaredToken
  rw [hget, hdef]
  cases hfs : (strSplit raw ',').reverse.findSome? (entryPairToken pid) with
  | some t =>
    have ht : t ≠ "" := findSome?_prop (entryPairToken pid) (fun s => s ≠ "")
      (fun a b hb => entryPairToken_ne_empty pid a b hb) _ t hfs
    simp [ht]
  | none => rfl

/-- Witness for C2_amended, at the spec's own scenario string
"10:abc,20:def,xyz": the unknown project "99" falls back to the bare
default token "xyz". -/
theorem C2_amended_witness :
    getToken (parseTokenString "10:abc,20:def,xyz") "99" = "xyz" := by
  rw [C2_amended "10:abc,20:def,xyz" "99" (by decide)]
  decide

/-! ### Sorting lemmas -/

theorem insertDescById_perm (x : ApiItem) (l : List ApiItem) :
    List.Perm (insertDescById x l) (x :: l) := by
  induction l with
  | nil => simp [insertDescById]
  | cons y ys ih =>
    simp only [insertDescById]
    by_cases h : y.rid ≤ x.rid
    · rw [if_pos h]
    · rw [if_neg h]
      exact (ih.cons y).trans (List.Perm.swap x y ys)

theorem sortByIdDesc_perm (l : List ApiItem) : List.Perm (sortByIdDesc l) l := by
  induction l with
  | nil => simp [sortByIdDesc]
  | cons x xs ih =>
    simp only [sortByIdDesc, List.foldr_cons]
    exact (insertDescById_perm x _).trans (ih.cons x)

theorem insertDescById_pairwise (x : ApiItem) (l : List ApiItem)
    (h : List.Pairwise (fun a b => b.rid ≤ a.rid) l) :
    List.Pairwise (fun a b => b.rid ≤ a.rid) (insertDescById x l) := by
  induction l with
  | nil => simp [insertDescById]
  | cons y ys ih =>
    simp only [insertDescById]
    by_cases hle : y.rid ≤ x.rid
    · rw [if_pos hle]
      refine List.Pairwise.cons ?_ h
      intro z hz
      rcases List.mem_cons.mp hz with h1 | h1
      · exact h1 ▸ hle
      · exact le_trans (List.rel_of_pairwise_cons h h1) hle
    · rw [if_neg hle]
      refine List.Pairwise.cons ?_ (ih (List.Pairwise.of_cons h))
      intro z hz
      have hz2 : z ∈ x :: ys := (insertDescById_perm x ys).mem_iff.mp hz
      rcases List.mem_cons.mp hz2 with h1 | h1
      · exact h1 ▸ Nat.le_of_lt (Nat.lt_of_not_le hle)
      · exact List.rel_of_pairwise_cons h h1

theorem sortByIdDesc_sorted (l : List ApiItem) :
    List.Pairwise (fun a b => b.rid ≤ a.rid) (sortByIdDesc l) := by
  induction l with
  | nil => simp [sortByIdDesc]
  | cons x xs ih =>
    simp only [sortByIdDesc, List.foldr_cons]
    exact insertDescById_pairwise x _ ih

/-! ### Deduplication lemmas -/

theorem dedupGo_sublist (seen : List Nat) (l : List ApiItem) :
    (dedupGo seen l).Sublist l := by
  induction l generalizing seen with
  | nil => simp [dedupGo]
  | cons x xs ih =>
    simp only [dedupGo]
    by_cases h : x.rid ∈ seen
    · rw [if_pos h]
      exact (ih seen).cons x
    · rw [if_neg h]
      exact (ih (x.rid :: seen)).cons₂ x

theorem dedupGo_not_mem_seen (seen : List Nat) (l : List ApiItem) (x : ApiItem)
    (hx : x ∈ dedupGo seen l) : x.rid ∉ seen := by
  induction l generalizing seen with
  | nil => simp [dedupGo] at hx
  | cons y ys ih =>
    simp only [dedupGo] at hx
    by_cases h : y.rid ∈ seen
    · rw [if_pos h] at hx
      exact ih seen hx
    · rw [if_neg h] at hx
      rcases List.mem_cons.mp hx with h1 | h1
      · subst h1
        exact h
      · exact fun hmem => ih (y.rid :: seen) h1 (List.mem_cons_of_mem _ hmem)

theorem dedupGo_ids_nodup (seen : List Nat) (l : List ApiItem) :
    ((dedupGo seen l).map (fun i => i.rid)).Nodup := by
  induction l generalizing seen with
  | nil => simp [dedupGo]
  | cons y ys ih =>
    simp only [dedupGo]
    by_cases h : y.rid ∈ seen
    · rw [if_pos h]
      exact ih seen
    · rw [if_neg h]
      simp only [List.map_cons, List.nodup_cons]
      refine ⟨?_, ih (y.rid :: seen)⟩
      intro hmem
      rcases List.mem_map.mp hmem with ⟨z, hz, hzr⟩
      exact dedupGo_not_mem_seen _ _ z hz (by rw [hzr]; exact List.mem_cons_self _ _)

theorem dedupGo_find? (seen : List Nat) (l : List ApiItem) (n : Nat) (hn : n ∉ seen) :
    (dedupGo seen l).find? (fun i => i.rid == n) = l.find? (fun i => i.rid == n) := by
  induction l generalizing seen with
  | nil => simp [dedupGo]
  | cons y ys ih =>
    simp only [dedupGo]
    by_cases h : y.rid ∈ seen
    · rw [if_pos h]
      have hyn : (y.rid == n) = false := by
        simp only [beq_eq_false_iff_ne, ne_eq]
        intro he
        exact hn (he ▸ h)
      simp only [List.find?_cons, hyn]
      exact ih seen hn
    · rw [if_neg h]
      by_cases he : y.rid = n
      · have hbe : (y.rid == n) = true := by simp [he]
        simp only [List.find?_cons, hbe]
      · have hf : (y.rid == n) = false := by simp [he]
        simp only [List.find?_cons, hf]
        refine ih (y.rid :: seen) ?_
        intro hc
        rcases List.mem_cons.mp hc with h1 | h1
        · exact he h1.symm
        · exact hn h1

theorem dedupGo_mem_ids (seen : List Nat) (l : List ApiItem) (x : ApiItem)
    (hx : x ∈ l) (hs : x.rid ∉ seen) :
    x.rid ∈ (dedupGo seen l).map (fun i => i.rid) := by
  induction l generalizing seen with
  | nil => cases hx
  | cons y ys ih =>
    simp only [dedupGo]
    rcases List.mem_cons.mp hx with h1 | h1
    · subst h1
      rw [if_neg hs]
      simp
    · by_cases h : y.rid ∈ seen
      · rw [if_pos h]
        exact ih seen h1 hs
      · rw [if_neg h]
        by_cases he : x.rid = y.rid
        · simp [he]
        · have hnotin : x.rid ∉ y.rid :: seen := by
            intro hc
            rcases List.mem_cons.mp hc with hc1 | hc1
            · exact he hc1
            · exact hs hc1
          simp only [List.map_cons]
          exact List.mem_cons_of_mem _ (ih (y.rid :: seen) h1 hnotin)

/-! ### Search-engine shape lemmas -/

theorem searchApisM_eq {E : Type}
    (gm : String → Except E (List MenuCategory))
    (gc : String → Except E (List CategoryInfo))
    (tm pm : String → ApiItem → Except E Bool)
    (tg : List String → ApiItem → Except E Bool)
    (cps : List ProjectInfo) (pk : Option String)
    (nk pkw tkw : List String) (page limit maxP : Nat) :
    searchApisM gm gc tm pm tg cps pk nk pkw tkw page limit maxP =
      { total := (deduplicateResults (allSearchResultsM gm gc tm pm tg cps pk nk pkw tkw page limit maxP)).length,
        list := (deduplicateResults (allSearchResultsM gm gc tm pm tg cps pk nk pkw tkw page limit maxP)).take limit } := by
  simp only [searchApisM]
  split
  next h =>
    have he : candidateProjects cps pk maxP = [] := List.isEmpty_iff.mp h
    simp [allSearchResultsM, he, deduplicateResults, dedupGo]
  next h => rfl

theorem searchWithSingleKeywordM_sorted {E : Type}
    (gm : String → Except E (List MenuCategory))
    (tm pm : String → ApiItem → Except E Bool)
    (tg : List String → ApiItem → Except E Bool)
    (pid : String) (q : QueryParams) (page limit : Nat) :
    List.Pairwise (fun a b => b.rid ≤ a.rid)
      ((searchWithSingleKeywordM gm tm pm tg pid q page limit).list) := by
  simp only [searchWithSingleKeywordM]
  split
  · simp
  · exact sortByIdDesc_sorted _

theorem listFlatMapCongr {α β : Type} (l : List α) (f g : α → List β)
    (h : ∀ a ∈ l, f a = g a) : l.flatMap f = l.flatMap g := by
  induction l with
  | nil => rfl
  | cons a rest ih =>
    simp only [List.flatMap_cons]
    rw [h a (by simp), ih (fun b hb => h b (by simp [hb]))]

theorem enrichItem_rid {E : Type} (gc : String → Except E (List CategoryInfo))
    (p : ProjectInfo) (i : ApiItem) : (enrichItem gc p i).rid = i.rid := by
  simp only [enrichItem]
  split
  · rfl
  · split <;> rfl

/-! ### Claim C1 -/

/-- Claim C1, counterexample: one project whose menu holds interface 5
("User Login") and interface 9 ("Big admin"); searching with the two name
keywords "login" and "admin" returns the list [5, 9] — the concatenation of
the two per-combination fetches — which is NOT sorted by id descending, so
the final list is not the id-descending sort of the deduplicated results. -/
theorem C1_counterexample :
    ((searchApis
        (fun _ => .ok [⟨10, "c", [⟨5, "User Login", "/a", []⟩, ⟨9, "Big admin", "/b", []⟩]⟩])
        (fun _ => .ok [])
        [⟨"1", "P", ""⟩] none ["login", "admin"] [] [] 1 20 5).list.map (fun i => i.rid)
      = [5, 9]) ∧
    sortedDescByIds (searchApis
        (fun _ => .ok [⟨10, "c", [⟨5, "User Login", "/a", []⟩, ⟨9, "Big admin", "/b", []⟩]⟩])
        (fun _ => .ok [])
        [⟨"1", "P", ""⟩] none ["login", "admin"] [] [] 1 20 5).list = false := by
  constructor
  · decide
  · decide

/-- Claim C1 (amended): after concatenating the per-project, per-combination
result sets, results are deduplicated by interface id with the first
occurrence winning (each id appears at most once, the survivor being the
first occurrence in concatenation order), and the returned list is that
deduplicated list truncated to limit; each per-combination fetch list is
itself sorted by id descending, but the concatenation is NOT re-sorted
globally, so a duplicate id appears at its first occurrence's position, not
at the position dictated by an id-descending sort of the whole list. -/
theorem C1_amended (gm : String → Except Unit (List MenuCategory))
    (gc : String → Except Unit (List CategoryInfo))
    (cps : List ProjectInfo) (pk : Option String)
    (nk pkw tkw : List String) (page limit maxP : Nat) :
    ((deduplicateResults (allSearchResults gm gc cps pk nk pkw tkw page limit maxP)).map
      (fun i => i.rid)).Nodup ∧
    (deduplicateResults (allSearchResults gm gc cps pk nk pkw tkw page limit maxP)).Sublist
      (allSearchResults gm gc cps pk nk pkw tkw page limit maxP) ∧
    (∀ n : Nat,
      (deduplicateResults (allSearchResults gm gc cps pk nk pkw tkw page limit maxP)).find?
          (fun i => i.rid == n) =
        (allSearchResults gm gc cps pk nk pkw tkw page limit maxP).find? (fun i => i.rid == n)) ∧
    (searchApis gm gc cps pk nk pkw tkw page limit maxP).list =
      (deduplicateResults (allSearchResults gm gc cps pk nk pkw tkw page limit maxP)).take limit ∧
    (∀ project ∈ candidateProjects cps pk maxP, ∀ combo ∈ keywordCombos nk pkw tkw,
      List.Pairwise (fun a b => b.rid ≤ a.rid)
        ((searchWithSingleKeyword gm project.pid
          (mkQueryParams combo.1 combo.2.1 combo.2.2) page limit).list)) := by
  refine ⟨dedupGo_ids_nodup [] _, dedupGo_sublist [] _, ?_, ?_, ?_⟩
  · intro n
    exact dedupGo_find? [] _ n (by simp)
  · have h : searchApis gm gc cps pk nk pkw tkw page limit maxP =
        { total := (deduplicateResults (allSearchResults gm gc cps pk nk pkw tkw page limit maxP)).length,
          list := (deduplicateResults (allSearchResults gm gc cps pk nk pkw tkw page limit maxP)).take limit } :=
      searchApisM_eq gm gc (fun k i => .ok (titleMatch k i)) (fun k i => .ok (pathMatch k i))
        (fun k i => .ok (tagMatch k i)) cps pk nk pkw tkw page limit maxP
    rw [h]
  · intro project _ combo _
    exact searchWithSingleKeywordM_sorted gm _ _ _ project.pid _ page limit

/-- Witness for C1_amended at a concrete search: the deduplicated ids are
nodup and the returned list is the truncation of the deduplicated results. -/
theorem C1_amended_witness :
    ((deduplicateResults (allSearchResults
        (fun _ => .ok [⟨10, "c", [⟨5, "User Login", "/a", []⟩, ⟨9, "Big admin", "/b", []⟩]⟩])
        (fun _ => .ok [])
        [⟨"1", "P", ""⟩] none ["login", "admin"] [] [] 1 20 5)).map (fun i => i.rid)).Nodup := by
  exact (C1_amended
    (fun _ => .ok [⟨10, "c", [⟨5, "User Login", "/a", []⟩, ⟨9, "Big admin", "/b", []⟩]⟩])
    (fun _ => .ok [])
    [⟨"1", "P", ""⟩] none ["login", "admin"] [] [] 1 20 5).1

/-! ### Claim C5 -/

/-- Claim C5: the returned list is the deduplicated result list truncated to
at most limit entries, and total is the deduplicated count before
truncation, so total can exceed list.length but list.length never exceeds
limit or total. -/
theorem C5_theorem (gm : String → Except Unit (List MenuCategory))
    (gc : String → Except Unit (List CategoryInfo))
    (cps : List ProjectInfo) (pk : Option String)
    (nk pkw tkw : List String) (page limit maxP : Nat) :
    (searchApis gm gc cps pk nk pkw tkw page limit maxP).total =
      (deduplicateResults (allSearchResults gm gc cps pk nk pkw tkw page limit maxP)).length ∧
    (searchApis gm gc cps pk nk pkw tkw page limit maxP).list =
      (deduplicateResults (allSearchResults gm gc cps pk nk pkw tkw page limit maxP)).take limit ∧
    (searchApis gm gc cps pk nk pkw tkw page limit maxP).list.length =
      min limit (deduplicateResults (allSearchResults gm gc cps pk nk pkw tkw page limit maxP)).length ∧
    (searchApis gm gc cps pk nk pkw tkw page limit maxP).list.length ≤
      (searchApis gm gc cps pk nk pkw tkw page limit maxP).total := by
  have h : searchApis gm gc cps pk nk pkw tkw page limit maxP =
      { total := (deduplicateResults (allSearchResults gm gc cps pk nk pkw tkw page limit maxP)).length,
        list := (deduplicateResults (allSearchResults gm gc cps pk nk pkw tkw page limit maxP)).take limit } :=
    searchApisM_eq gm gc (fun k i => .ok (titleMatch k i)) (fun k i => .ok (pathMatch k i))
      (fun k i => .ok (tagMatch k i)) cps pk nk pkw tkw page limit maxP
  rw [h]
  refine ⟨rfl, rfl, List.length_take _ _, ?_⟩
  rw [List.length_take]
  exact min_le_right _ _

/-! ### Claim C9 -/

/-- Claim C9: the page argument is accepted but never applied — two searches
differing only in page return identical results, and the list is always the
first limit entries of the deduplicated results. -/
theorem C9_theorem (gm : String → Except Unit (List MenuCategory))
    (gc : String → Except Unit (List CategoryInfo))
    (cps : List ProjectInfo) (pk : Option String)
    (nk pkw tkw : List String) (page1 page2 limit maxP : Nat) :
    searchApis gm gc cps pk nk pkw tkw page1 limit maxP =
      searchApis gm gc cps pk nk pkw tkw page2 limit maxP ∧
    (searchApis gm gc cps pk nk pkw tkw page1 limit maxP).list =
      (deduplicateResults (allSearchResults gm gc cps pk nk pkw tkw page1 limit maxP)).take limit := by
  constructor
  · rfl
  · have h : searchApis gm gc cps pk nk pkw tkw page1 limit maxP =
        { total := (deduplicateResults (allSearchResults gm gc cps pk nk pkw tkw page1 limit maxP)).length,
          list := (deduplicateResults (allSearchResults gm gc cps pk nk pkw tkw page1 limit maxP)).take limit } :=
      searchApisM_eq gm gc (fun k i => .ok (titleMatch k i)) (fun k i => .ok (pathMatch k i))
        (fun k i => .ok (tagMatch k i)) cps pk nk pkw tkw page1 limit maxP
    rw [h]

/-! ### Claim C4 -/

theorem searchWithSingleKeywordM_congr {E : Type}
    (gm1 gm2 : String → Except E (List MenuCategory))
    (tm pm : String → ApiItem → Except E Bool)
    (tg : List String → ApiItem → Except E Bool)
    (pid : String) (q : QueryParams) (page limit : Nat)
    (h : gm1 pid = gm2 pid) :
    searchWithSingleKeywordM gm1 tm pm tg pid q page limit =
      searchWithSingleKeywordM gm2 tm pm tg pid q page limit := by
  simp only [searchWithSingleKeywordM, h]

theorem searchWithSingleKeywordM_fetch_error {E : Type}
    (gm : String → Except E (List MenuCategory))
    (tm pm : String → ApiItem → Except E Bool)
    (tg : List String → ApiItem → Except E Bool)
    (pid : String) (q : QueryParams) (page limit : Nat)
    (e : E) (h : gm pid = .error e) :
    searchWithSingleKeywordM gm tm pm tg pid q page limit = { total := 0, list := [] } := by
  simp only [searchWithSingleKeywordM, h]

theorem searchWithSingleKeywordM_nil_menu {E : Type}
    (gm : String → Except E (List MenuCategory))
    (tm pm : String → ApiItem → Except E Bool)
    (tg : List String → ApiItem → Except E Bool)
    (pid : String) (q : QueryParams) (page limit : Nat)
    (h : gm pid = .ok []) :
    searchWithSingleKeywordM gm tm pm tg pid q page limit = { total := 0, list := [] } := by
  simp only [searchWithSingleKeywordM, h, flattenMenu, List.flatMap_nil]
  simp [filterCaught, exceptFilter, sortByIdDesc]

/-- Claim C4, counterexample: a combination whose name-filter callback throws
does NOT contribute zero results — the filter pass's catch leaves the list
unfiltered, so the combination contributes the whole flattened menu (here one
interface, id 7) instead of the empty page the claim requires. -/
theorem C4_counterexample :
    searchWithSingleKeywordM (fun _ => .ok [⟨1, "c", [⟨7, "t", "/p", []⟩]⟩])
      (fun _ _ => (.error () : Except Unit Bool))
      (fun k i => .ok (pathMatch k i)) (fun k i => .ok (tagMatch k i))
      "1" { keyword := "x" } 1 20 =
      { total := 1, list := [⟨7, "t", "/p", [], 1, "c", none⟩] } ∧
    ({ total := 1, list := [⟨7, "t", "/p", [], 1, "c", none⟩] } : SearchPage) ≠
      { total := 0, list := [] } := by
  constructor
  · decide
  · decide

/-- Claim C4 (amended): a failed menu fetch for one project is fully
isolated — that project's combinations each contribute the empty page
`{total := 0, list := []}`, and the whole search returns exactly what it
would return had that project had an empty menu (so the other projects'
results and the success-only total are unaffected, and the search never
aborts); a thrown filter callback, however, is caught per filter pass and
leaves that pass UNapplied (the list is left as it was), rather than
contributing zero results. -/
theorem C4_amended {E : Type}
    (gm : String → Except E (List MenuCategory))
    (gc : String → Except E (List CategoryInfo))
    (tm pm : String → ApiItem → Except E Bool)
    (tg : List String → ApiItem → Except E Bool)
    (cps : List ProjectInfo) (pk : Option String)
    (nk pkw tkw : List String) (page limit maxP : Nat)
    (p0 : String) (e : E) (hfail : gm p0 = .error e) :
    searchApisM gm gc tm pm tg cps pk nk pkw tkw page limit maxP =
      searchApisM (fun q => if q = p0 then .ok [] else gm q) gc tm pm tg cps pk
        nk pkw tkw page limit maxP ∧
    (∀ (q : QueryParams) (page2 limit2 : Nat),
      searchWithSingleKeywordM gm tm pm tg p0 q page2 limit2 = { total := 0, list := [] }) ∧
    (∀ (p : ApiItem → Except E Bool) (l : List ApiItem) (er : E),
      exceptFilter p l = .error er → filterCaught p l = l) := by
  refine ⟨?_, ?_, ?_⟩
  · rw [searchApisM_eq, searchApisM_eq]
    have hall : allSearchResultsM gm gc tm pm tg cps pk nk pkw tkw page limit maxP =
        allSearchResultsM (fun q => if q = p0 then .ok [] else gm q) gc tm pm tg cps pk
          nk pkw tkw page limit maxP := by
      unfold allSearchResultsM
      apply listFlatMapCongr
      intro project _
      apply listFlatMapCongr
      intro combo _
      by_cases hp : project.pid = p0
      · rw [searchWithSingleKeywordM_fetch_error _ tm pm tg _ _ page limit e (hp ▸ hfail),
          searchWithSingleKeywordM_nil_menu _ tm pm tg _ _ page limit (by simp [hp])]
      · rw [searchWithSingleKeywordM_congr _ (fun q => if q = p0 then .ok [] else gm q)
          tm pm tg project.pid _ page limit (by simp [hp])]
    rw [hall]
  · intro q page2 limit2
    exact searchWithSingleKeywordM_fetch_error gm tm pm tg p0 q page2 limit2 e hfail
  · intro p l er h
    simp only [filterCaught, h]

/-- Witness for C4_amended: with an oracle that fails on every project, the
single-keyword search of project "1" yields the empty page. -/
theorem C4_amended_witness :
    searchWithSingleKeywordM (fun _ => (.error () : Except Unit (List MenuCategory)))
      (fun k i => .ok (titleMatch k i)) (fun k i => .ok (pathMatch k i))
      (fun k i => .ok (tagMatch k i)) "1" { keyword := "x" } 1 20 =
      { total := 0, list := [] } :=
  (C4_amended (fun _ => .error ()) (fun _ => .ok [])
    (fun k i => .ok (titleMatch k i)) (fun k i => .ok (pathMatch k i))
    (fun k i => .ok (tagMatch k i)) [] none [] [] [] 1 20 5 "1" () rfl).2.1
    { keyword := "x" } 1 20

/-! ### Claim C10 -/

theorem searchSingle_empty_query {E : Type}
    (gm : String → Except E (List MenuCategory))
    (tm pm : String → ApiItem → Except E Bool)
    (tg : List String → ApiItem → Except E Bool)
    (pid : String) (page limit : Nat) :
    searchWithSingleKeywordM gm tm pm tg pid (mkQueryParams "" "" "") page limit =
      match gm pid with
      | .ok menu => { total := (sortByIdDesc (flattenMenu menu)).length,
                      list := sortByIdDesc (flattenMenu menu) }
      | .error _ => { total := 0, list := [] } := by
  cases hgm : gm pid with
  | error e => simp [searchWithSingleKeywordM, hgm]
  | ok menu => simp [searchWithSingleKeywordM, mkQueryParams, hgm]

/-- Claim C10: with no name/path/tag keywords, the search performs exactly one
fetch per candidate project (the keyword-combination list is the single empty
triple), that fetch applies no filter — its page is the whole flattened menu,
id-descending — and every interface of every successfully fetched candidate
menu appears (by id) in the deduplicated results the returned page is cut
from. -/
theorem C10_theorem (gm : String → Except Unit (List MenuCategory))
    (gc : String → Except Unit (List CategoryInfo))
    (cps : List ProjectInfo) (pk : Option String) (page limit maxP : Nat) :
    keywordCombos [] [] [] = [("", "", "")] ∧
    allSearchResults gm gc cps pk [] [] [] page limit maxP =
      (candidateProjects cps pk maxP).flatMap (fun project =>
        match gm project.pid with
        | .ok menu => (sortByIdDesc (flattenMenu menu)).map (enrichItem gc project)
        | .error _ => []) ∧
    searchApis gm gc cps pk [] [] [] page limit maxP =
      { total := (deduplicateResults (allSearchResults gm gc cps pk [] [] [] page limit maxP)).length,
        list := (deduplicateResults (allSearchResults gm gc cps pk [] [] [] page limit maxP)).take limit } ∧
    ∀ project ∈ candidateProjects cps pk maxP, ∀ menu, gm project.pid = .ok menu →
      ∀ api ∈ flattenMenu menu,
        api.rid ∈ (deduplicateResults (allSearchResults gm gc cps pk [] [] [] page limit maxP)).map
          (fun i => i.rid) := by
  have h2 : allSearchResults gm gc cps pk [] [] [] page limit maxP =
      (candidateProjects cps pk maxP).flatMap (fun project =>
        match gm project.pid with
        | .ok menu => (sortByIdDesc (flattenMenu menu)).map (enrichItem gc project)
        | .error _ => []) := by
    unfold allSearchResults allSearchResultsM
    apply listFlatMapCongr
    intro project _
    show List.flatMap [("", "", "")] _ = _
    simp only [List.flatMap_cons, List.flatMap_nil, List.append_nil]
    rw [searchSingle_empty_query]
    cases hgm : gm project.pid with
    | ok menu => simp
    | error e => simp
  refine ⟨rfl, h2, ?_, ?_⟩
  · exact searchApisM_eq gm gc (fun k i => .ok (titleMatch k i)) (fun k i => .ok (pathMatch k i))
      (fun k i => .ok (tagMatch k i)) cps pk [] [] [] page limit maxP
  · intro project hp menu hgm api hapi
    have hxA : enrichItem gc project api ∈ allSearchResults gm gc cps pk [] [] [] page limit maxP := by
      rw [h2]
      apply List.mem_flatMap.mpr
      refine ⟨project, hp, ?_⟩
      rw [hgm]
      exact List.mem_map_of_mem _ ((sortByIdDesc_perm _).mem_iff.mpr hapi)
    have hm := dedupGo_mem_ids [] _ (enrichItem gc project api) hxA (by simp)
    rw [enrichItem_rid] at hm
    exact hm

/-- Witness for C10_theorem: with one candidate project whose menu holds the
single interface id 3, a search with no keywords surfaces id 3 in the
deduplicated results. -/
theorem C10_theorem_witness :
    3 ∈ (deduplicateResults (allSearchResults
        (fun _ => .ok [⟨1, "c", [⟨3, "t", "/p", []⟩]⟩]) (fun _ => .ok [])
        [⟨"1", "P", ""⟩] none [] [] [] 1 20 5)).map (fun i => i.rid) := by
  have h := (C10_theorem (fun _ => .ok [⟨1, "c", [⟨3, "t", "/p", []⟩]⟩]) (fun _ => .ok [])
    [⟨"1", "P", ""⟩] none 1 20 5).2.2.2
  exact h ⟨"1", "P", ""⟩ (by decide) [⟨1, "c", [⟨3, "t", "/p", []⟩]⟩] rfl
    ⟨3, "t", "/p", [], 1, "c", none⟩ (by decide)

/-! ### Claim C3 -/

/-- Claim C3, counterexample: with a tag string that fails to decode, the
save call is REJECTED — the handler returns the outer catch's error text and
issues no remote request — whereas the same call with the tag absent
proceeds and issues exactly one request.  So a tag decode failure is not
"non-fatal with the value treated as absent". -/
theorem C3_counterexample :
    yapiSaveApi (fun _ => (.error "SyntaxError" : Except String Unit))
      (fun _ _ _ => .ok ⟨0, "", ⟨42⟩⟩)
      { projectId := "1", catid := "2", title := "t", path := "/p", method := "GET",
        tag := some "oops" } =
      ("保存API接口出错: SyntaxError", []) ∧
    (yapiSaveApi (fun _ => (.error "SyntaxError" : Except String Unit))
      (fun _ _ _ => .ok ⟨0, "", ⟨42⟩⟩)
      { projectId := "1", catid := "2", title := "t", path := "/p", method := "GET" }).2.length
      = 1 := by
  constructor
  · decide
  · decide

/-- Claim C3 (amended): a decode failure of a caller-supplied nonempty tag
string is FATAL to the save call: the `JSON.parse(tag)` exception escapes to
the handler's outer catch, the call returns the outer catch's error message,
and no remote request is submitted. -/
theorem C3_amended {J : Type} (jsonParse : String → Except String J)
    (request : String → SaveApiInterfaceParams J → String → Except String SaveApiResponse)
    (a : SaveArgs) (t e : String)
    (htag : a.tag = some t) (hne : t ≠ "") (hparse : jsonParse t = .error e) :
    yapiSaveApi jsonParse request a = ("保存API接口出错: " ++ e, []) := by
  have hb : buildSaveParams jsonParse a = .error ("保存API接口出错: " ++ e) := by
    simp [buildSaveParams, parseOptField, htag, hne, hparse, mapErr, Except.map]
  simp [yapiSaveApi, hb]

/-- Witness for C3_amended at a concrete undecodable tag. -/
theorem C3_amended_witness :
    yapiSaveApi (fun _ => (.error "bad" : Except String Unit))
      (fun _ _ _ => .ok ⟨0, "", ⟨1⟩⟩)
      { projectId := "1", catid := "2", title := "t", path := "/p", method := "G",
        tag := some "x" } =
      ("保存API接口出错: bad", []) :=
  C3_amended (fun _ => .error "bad") (fun _ _ _ => .ok ⟨0, "", ⟨1⟩⟩)
    { projectId := "1", catid := "2", title := "t", path := "/p", method := "G",
      tag := some "x" } "x" "bad" rfl (by decide) rfl

/-! ### Claim C6 -/

/-- Claim C6, counterexample: when the tag string AND one of the four JSON
sub-structure fields are both undecodable, the call is still rejected with no
remote request, but the error is the outer catch's generic message from the
tag parse — it does not name the offending field (here req_params fails, yet
the text never mentions "路径参数"). -/
theorem C6_counterexample :
    yapiSaveApi (fun _ => (.error "E" : Except String Unit))
      (fun _ _ _ => .ok ⟨0, "", ⟨1⟩⟩)
      { projectId := "1", catid := "2", title := "t", path := "/p", method := "G",
        tag := some "T", req_params := some "P" } =
      ("保存API接口出错: E", []) ∧
    strHas "保存API接口出错: E" "路径参数" = false := by
  constructor
  · decide
  · decide

/-- Claim C6 (amended): if one of the four JSON-encoded sub-structure fields
(path params, query params, header params, form body) fails to parse, the
call is rejected with no remote request submitted; provided the tag field
(parsed first, inside the object literal) decoded, the error names the first
offending field in processing order — a tag decode failure instead preempts
with the outer catch's generic parse error. -/
theorem C6_amended {J : Type} (jsonParse : String → Except String J)
    (request : String → SaveApiInterfaceParams J → String → Except String SaveApiResponse)
    (a : SaveArgs) (f : SaveJsonField) (e : String)
    (hearlier : ∀ g ∈ earlierFields f, ∃ v, parseOptField jsonParse (fieldSource a g) = .ok v)
    (hfail : parseOptField jsonParse (fieldSource a f) = .error e) :
    (yapiSaveApi jsonParse request a).2 = [] ∧
    (∀ tv, parseOptField jsonParse a.tag = .ok tv →
      yapiSaveApi jsonParse request a = (fieldLabel f ++ e, [])) := by
  cases htag : parseOptField jsonParse a.tag with
  | error e0 =>
    have hb : buildSaveParams jsonParse a = .error ("保存API接口出错: " ++ e0) := by
      simp [buildSaveParams, htag, mapErr]
    refine ⟨by simp [yapiSaveApi, hb], ?_⟩
    intro tv htv
    cases htv
  | ok tv =>
    have hb : buildSaveParams jsonParse a = .error (fieldLabel f ++ e) := by
      cases f with
      | reqParams =>
        simp only [fieldSource] at hfail
        simp [buildSaveParams, htag, hfail, mapErr, fieldLabel]
      | reqQuery =>
        obtain ⟨w1, hw1⟩ := hearlier .reqParams (by simp [earlierFields])
        simp only [fieldSource] at hfail hw1
        simp [buildSaveParams, htag, hw1, hfail, mapErr, fieldLabel]
      | reqHeaders =>
        obtain ⟨w1, hw1⟩ := hearlier .reqParams (by simp [earlierFields])
        obtain ⟨w2, hw2⟩ := hearlier .reqQuery (by simp [earlierFields])
        simp only [fieldSource] at hfail hw1 hw2
        simp [buildSaveParams, htag, hw1, hw2, hfail, mapErr, fieldLabel]
      | reqBodyForm =>
        obtain ⟨w1, hw1⟩ := hearlier .reqParams (by simp [earlierFields])
        obtain ⟨w2, hw2⟩ := hearlier .reqQuery (by simp [earlierFields])
        obtain ⟨w3, hw3⟩ := hearlier .reqHeaders (by simp [earlierFields])
        simp only [fieldSource] at hfail hw1 hw2 hw3
        simp [buildSaveParams, htag, hw1, hw2, hw3, hfail, mapErr, fieldLabel]
    exact ⟨by simp [yapiSaveApi, hb], fun tv2 _ => by simp [yapiSaveApi, hb]⟩

/-- Witness for C6_amended: req_params decodes, req_query does not; the call
is rejected naming the query-params field and no request is issued. -/
theorem C6_amended_witness :
    yapiSaveApi (fun s => if s = "bad" then (.error "E" : Except String Unit) else .ok ())
      (fun _ _ _ => .ok ⟨0, "", ⟨1⟩⟩)
      { projectId := "1", catid := "2", title := "t", path := "/p", method := "G",
        req_params := some "good", req_query := some "bad" } =
      ("查询参数JSON解析错误: E", []) := by
  have h := (C6_amended (fun s => if s = "bad" then (.error "E" : Except String Unit) else .ok ())
    (fun _ _ _ => .ok ⟨0, "", ⟨1⟩⟩)
    { projectId := "1", catid := "2", title := "t", path := "/p", method := "G",
      req_params := some "good", req_query := some "bad" }
    .reqQuery "E"
    (by
      intro g hg
      simp only [earlierFields, List.mem_singleton] at hg
      subst hg
      exact ⟨some (), rfl⟩)
    rfl).2 none rfl
  exact h

/-! ### Claim C7 -/

theorem buildSaveParams_ok {J : Type} (jsonParse : String → Except String J)
    (a : SaveArgs) (tv v1 v2 v3 v4 : Option J)
    (h0 : parseOptField jsonParse a.tag = .ok tv)
    (h1 : parseOptField jsonParse a.req_params = .ok v1)
    (h2 : parseOptField jsonParse a.req_query = .ok v2)
    (h3 : parseOptField jsonParse a.req_headers = .ok v3)
    (h4 : parseOptField jsonParse a.req_body_form = .ok v4) :
    buildSaveParams jsonParse a = .ok (builtParams a tv v1 v2 v3 v4) := by
  simp [buildSaveParams, h0, h1, h2, h3, h4, mapErr]

/-- Claim C7: when every JSON field parses and the remote call succeeds with
errcode 0, the handler issues exactly one request — to the update endpoint
when the caller's id is present (truthy), to the create endpoint when it is
absent — and the response text echoes the resulting interface id from the
remote response. -/
theorem C7_theorem {J : Type} (jsonParse : String → Except String J)
    (request : String → SaveApiInterfaceParams J → String → Except String SaveApiResponse)
    (a : SaveArgs) (tv v1 v2 v3 v4 : Option J) (resp : SaveApiResponse)
    (h0 : parseOptField jsonParse a.tag = .ok tv)
    (h1 : parseOptField jsonParse a.req_params = .ok v1)
    (h2 : parseOptField jsonParse a.req_query = .ok v2)
    (h3 : parseOptField jsonParse a.req_headers = .ok v3)
    (h4 : parseOptField jsonParse a.req_body_form = .ok v4)
    (hreq : request (if optTruthy a.id then "/api/interface/up" else "/api/interface/add")
      (builtParams a tv v1 v2 v3 v4) a.projectId = .ok resp)
    (hcode : resp.errcode = 0) :
    yapiSaveApi jsonParse request a =
      ("接口" ++ (if optTruthy a.id then "更新" else "新增") ++ "成功！\n接口ID: " ++
          toString resp.data.rid ++ "\n接口名称: " ++ a.title ++ "\n请求方法: " ++ a.method ++
          "\n接口路径: " ++ a.path,
        [(if optTruthy a.id then "/api/interface/up" else "/api/interface/add",
          builtParams a tv v1 v2 v3 v4, a.projectId)]) := by
  have hb := buildSaveParams_ok jsonParse a tv v1 v2 v3 v4 h0 h1 h2 h3 h4
  have hnone : optTruthy none = false := rfl
  cases hid : optTruthy a.id with
  | true =>
    simp only [builtParams] at hreq
    simp only [hid, if_true] at hreq ⊢
    simp [yapiSaveApi, hb, saveInterface, builtParams, hid, hreq, hcode]
  | false =>
    simp only [builtParams] at hreq
    simp only [hid, Bool.false_eq_true, if_false] at hreq ⊢
    simp [yapiSaveApi, hb, saveInterface, builtParams, hid, hnone, hreq, hcode]

/-- Witness for C7_theorem: a call with id "42" issues the update endpoint
and echoes the remote-assigned id 7. -/
theorem C7_theorem_witness :
    yapiSaveApi (fun _ => (.ok () : Except String Unit))
      (fun _ _ _ => .ok ⟨0, "", ⟨7⟩⟩)
      { projectId := "1", catid := "2", id := some "42", title := "t", path := "/p",
        method := "G" } =
      ("接口更新成功！\n接口ID: 7\n接口名称: t\n请求方法: G\n接口路径: /p",
        [("/api/interface/up",
          builtParams
            { projectId := "1", catid := "2", id := some "42", title := "t", path := "/p",
              method := "G" } none none none none none, "1")]) := by
  have h := C7_theorem (fun _ => (.ok () : Except String Unit))
    (fun _ _ _ => .ok ⟨0, "", ⟨7⟩⟩)
    { projectId := "1", catid := "2", id := some "42", title := "t", path := "/p",
      method := "G" }
    none none none none none ⟨0, "", ⟨7⟩⟩ rfl rfl rfl rfl rfl rfl rfl
  exact h.trans (by decide)

/-! ### Claim C8 -/

theorem cachedFetch_get_other {β : Type} (f : String → Except String β)
    (cache : List (String × β)) (i pid : String) (h : i ≠ pid) :
    mapGet (cachedFetch f cache i).1 pid = mapGet cache pid := by
  simp only [cachedFetch]
  cases hm : mapGet cache i with
  | some v => rfl
  | none =>
    cases hf : f i with
    | ok v => simp [mapGet_mapSet, h]
    | error e => rfl

theorem loadAllS_get {β : Type} (f : String → Except String β) (ids : List String)
    (cache : List (String × β)) (pid : String) :
    mapGet (loadAllS f ids cache) pid =
      match mapGet cache pid with
      | some v => some v
      | none => if pid ∈ ids then okValue (f pid) else none := by
  induction ids generalizing cache with
  | nil =>
    simp only [loadAllS, List.foldl_nil]
    cases hm : mapGet cache pid <;> simp [hm]
  | cons i rest ih =>
    simp only [loadAllS, List.foldl_cons] at ih ⊢
    rw [ih]
    by_cases hpi : pid = i
    · subst hpi
      cases hm : mapGet cache pid with
      | some v => simp [cachedFetch, hm]
      | none =>
        cases hf : f pid with
        | ok v => simp [cachedFetch, hm, hf, mapGet_mapSet, okValue]
        | error e => simp [cachedFetch, hm, hf, okValue, ite_self]
    · rw [cachedFetch_get_other f cache i pid (fun hc => hpi hc.symm)]
      cases hm : mapGet cache pid with
      | some v => simp
      | none => simp [List.mem_cons, hpi]

theorem loadAllS_keys {β : Type} (f : String → Except String β) (ids : List String)
    (cache : List (String × β)) (hdisj : ∀ i ∈ ids, mapGet cache i = none)
    (hnd : ids.Nodup) :
    mapKeys (loadAllS f ids cache) = mapKeys cache ++ ids.filter (fun i => isOkB (f i)) := by
  induction ids generalizing cache with
  | nil => simp [loadAllS]
  | cons i rest ih =>
    have hci : mapGet cache i = none := hdisj i (by simp)
    obtain ⟨hhead, htail⟩ := List.nodup_cons.mp hnd
    simp only [loadAllS, List.foldl_cons] at ih ⊢
    cases hf : f i with
    | ok v =>
      have hstep : (cachedFetch f cache i).1 = mapSet cache i v := by
        simp [cachedFetch, hci, hf]
      rw [hstep]
      have hdisj2 : ∀ j ∈ rest, mapGet (mapSet cache i v) j = none := by
        intro j hj
        rw [mapGet_mapSet]
        have : i ≠ j := fun hc => hhead (hc ▸ hj)
        rw [if_neg this]
        exact hdisj j (List.mem_cons_of_mem _ hj)
      rw [ih (mapSet cache i v) hdisj2 htail, mapKeys_mapSet_new cache i v hci]
      simp [hf, isOkB, List.filter_cons]
    | error e =>
      have hstep : (cachedFetch f cache i).1 = cache := by
        simp [cachedFetch, hci, hf]
      rw [hstep, ih cache (fun j hj => hdisj j (List.mem_cons_of_mem _ hj)) htail]
      simp [hf, isOkB, List.filter_cons]

/-- Claim C8: the refreshAll pass (asyncUpdateCache) is best-effort in both
phases — starting from cold caches, after the project phase each credentialed
id is mapped exactly when its own fetch succeeded (one project's failure
leaves every other project's outcome untouched), the project map's keys are
exactly the successfully fetched ids in order, and the category phase then
stores a category list for every project present in the project map whose
category fetch succeeded, likewise independently.  (The parallel Promise.all
fan-outs are modelled by their completed-fan-out linearization.) -/
theorem C8_theorem (fetchProject : String → Except String ProjectInfo)
    (fetchCats : String → Except String (List CategoryInfo))
    (ids : List String) (hnd : ids.Nodup) :
    (∀ pid ∈ ids,
      mapGet (asyncUpdateCache fetchProject fetchCats ids [] []).1 pid =
        okValue (fetchProject pid)) ∧
    mapKeys (asyncUpdateCache fetchProject fetchCats ids [] []).1 =
      ids.filter (fun i => isOkB (fetchProject i)) ∧
    (∀ pid ∈ mapKeys (asyncUpdateCache fetchProject fetchCats ids [] []).1,
      mapGet (asyncUpdateCache fetchProject fetchCats ids [] []).2 pid =
        okValue (fetchCats pid)) := by
  have hp : ∀ pid, mapGet (loadAllS fetchProject ids []) pid =
      if pid ∈ ids then okValue (fetchProject pid) else none := by
    intro pid
    rw [loadAllS_get]
    rfl
  have hkeys : mapKeys (loadAllS fetchProject ids []) =
      ids.filter (fun i => isOkB (fetchProject i)) := by
    have := loadAllS_keys fetchProject ids [] (fun i _ => rfl) hnd
    simpa [mapKeys] using this
  refine ⟨?_, ?_, ?_⟩
  · intro pid hpid
    show mapGet (loadAllS fetchProject ids []) pid = okValue (fetchProject pid)
    rw [hp pid, if_pos hpid]
  · exact hkeys
  · intro pid hpid
    show mapGet (loadAllS fetchCats (mapKeys (loadAllS fetchProject ids [])) []) pid =
      okValue (fetchCats pid)
    have hpid2 : pid ∈ mapKeys (loadAllS fetchProject ids []) := hpid
    rw [loadAllS_get]
    show (if pid ∈ mapKeys (loadAllS fetchProject ids []) then okValue (fetchCats pid) else none) =
      okValue (fetchCats pid)
    rw [if_pos hpid2]

/-- Witness for C8_theorem: with project "1" fetchable and project "2"
failing, the refreshed project map holds exactly key "1". -/
theorem C8_theorem_witness :
    mapKeys (asyncUpdateCache
      (fun pid => if pid = "1" then .ok ⟨"1", "P", ""⟩ else .error "boom")
      (fun _ => .ok []) ["1", "2"] [] []).1 = ["1"] := by
  have h := (C8_theorem (fun pid => if pid = "1" then .ok ⟨"1", "P", ""⟩ else .error "boom")
    (fun _ => .ok []) ["1", "2"] (by decide)).2.1
  rw [h]
  decide

end YapiMcp
